import Mathlib

/-!
Shallow embedding of the Event Scoring Engine of the lead-scoring-system
repository (backend/src/services/scoringEngine.js, together with the
Mongoose schemas in backend/src/models).  The persistent store is modelled
as an explicit record of lists; each `await model.save()` becomes a pure
state update.  Date values are modelled as integers (their order is all the
engine observes); fields no property observes (metadata, processedAt,
updatedAt, createdAt, lead name/email/company/status) are projected away.

JavaScript control flow notes reflected in the model:
  - in `processEvent`, the in-order path builds the object literal
    `\x7b leadId, score, previousScore, change, ... \x7d` (lines 108-117)
    where the identifier `change` is never declared anywhere in the
    function; evaluating it throws a ReferenceError, after
    `lead.save()` (line 106) and before `historyEntry.save()` (line 118).
    The model makes this the error value `JsError.referenceErrorChange`.
  - thrown errors propagate (the catch block rethrows), leaving whatever
    writes already happened in place; the model returns the partially
    updated store next to the error.
-/

namespace LeadScoring

/-- MAX_SCORE is read from the environment with default 1000; the model
takes it as an explicit parameter `MAX`. -/
def DEFAULT_MAX_SCORE : Int := 1000

/-- One document of the ScoringRule collection (models/ScoringRule.js);
`eventType` is a unique key. -/
structure Rule where
  eventType : String
  points : Int
  active : Bool
deriving DecidableEq

/-- One document of the Event collection (models/Event.js). -/
structure EventRec where
  eventId : String
  eventType : String
  leadId : String
  timestamp : Int
  processed : Bool
deriving DecidableEq

/-- One document of the ScoreHistory collection (models/ScoreHistory.js). -/
structure HistoryEntry where
  leadId : String
  score : Int
  previousScore : Int
  change : Int
  eventId : String
  eventType : String
  reason : String
  timestamp : Int
deriving DecidableEq

/-- The score-relevant part of a Lead document (models/Lead.js). -/
structure Lead where
  leadId : String
  currentScore : Int
deriving DecidableEq

/-- The persistent store: one list per collection, in insertion order
(inserts are appends, so a list position is the implicit ledger-write
sequence number of the row). -/
structure DB where
  leads : List Lead
  events : List EventRec
  history : List HistoryEntry
  rules : List Rule
deriving DecidableEq

/-- The payload handed to `emitScoreUpdate` (websocket.js), restricted to
the score-relevant fields. -/
structure Notification where
  leadId : String
  previousScore : Int
  newScore : Int
  change : Int
  eventType : String
  timestamp : Int
  outOfOrder : Bool
deriving DecidableEq

/-- Errors `processEvent` / `recalculateLeadScore` can throw. -/
inductive JsError where
  | leadNotFound
  | noActiveRule
  | referenceErrorChange
deriving DecidableEq

/-- Successful return values of `processEvent`.  The constructor `ok`
models the object returned at lines 139-146 of the source; it is never
produced by the model because the in-order path throws
`referenceErrorChange` first (see the module comment). -/
inductive ProcResult where
  | duplicate
  | outOfOrder (leadId : String) (previousScore newScore change : Int)
      (eventType : String)
  | ok (leadId : String) (previousScore newScore change : Int)
      (eventType : String)
deriving DecidableEq

/-- Return value of `recalculateLeadScore` (lines 242-247). -/
structure RecalcResult where
  leadId : String
  previousScore : Int
  newScore : Int
  eventsProcessed : Nat
deriving DecidableEq

/-- The event payload handed to `processEvent` (destructured at line 11);
`timestamp` is optional, defaulted to the current time at line 44. -/
structure EventData where
  eventId : String
  eventType : String
  leadId : String
  timestamp : Option Int
deriving DecidableEq

/-- Event.findOne(\x7b eventId \x7d) : the eventId field carries a unique
index, so at most one row matches; the model returns the first. -/
def findEvent (events : List EventRec) (eventId : String) : Option EventRec :=
  events.find? (fun e => e.eventId == eventId)

/-- Lead.findById(leadId). -/
def findLead (leads : List Lead) (leadId : String) : Option Lead :=
  leads.find? (fun l => l.leadId == leadId)

/-- ScoringRule.findOne(\x7b eventType, active: true \x7d); eventType is a
unique key. -/
def findActiveRule (rules : List Rule) (eventType : String) : Option Rule :=
  rules.find? (fun r => r.eventType == eventType && r.active)

/-- ScoreHistory.findOne(\x7b leadId \x7d).sort(\x7b timestamp: -1 \x7d)
(lines 52-54) : the source only ever reads `latestHistory.timestamp`, so
the model returns exactly that — the maximal timestamp among the entries
of the lead, or none when the lead has no history. -/
def latestHistoryTimestamp (history : List HistoryEntry) (leadId : String) :
    Option Int :=
  (history.filter (fun h => h.leadId == leadId)).foldl
    (fun acc h =>
      match acc with
      | none => some h.timestamp
      | some t => some (max t h.timestamp)) none

/-- Lines 95-102: add the points, cap at MAX_SCORE, then floor at 0. -/
def clampScore (MAX x : Int) : Int :=
  let x1 := if x > MAX then MAX else x
  if x1 < 0 then 0 else x1

/-- The row-level update performed by `lead.save()` after
`lead.currentScore = score`. -/
def updateScoreFn (leadId : String) (score : Int) (l : Lead) : Lead :=
  if l.leadId == leadId then { l with currentScore := score } else l

/-- lead.currentScore = score; lead.save() — updates the lead row in
place. -/
def saveLeadScore (db : DB) (leadId : String) (score : Int) : DB :=
  { db with leads := db.leads.map (updateScoreFn leadId score) }

/-- The row-level update performed by `event.save()` after
`event.processed = true`. -/
def markProcessedFn (eventId : String) (e : EventRec) : EventRec :=
  if e.eventId == eventId then { e with processed := true } else e

/-- event.processed = true; event.save() — updates the event row in
place. -/
def markEventProcessed (db : DB) (eventId : String) : DB :=
  { db with events := db.events.map (markProcessedFn eventId) }

/-- Lines 36-48: reuse a previously interrupted event record when one
exists, otherwise create and save a new one (with the defaulted
timestamp).  Returns the record the rest of the function works with and
the updated Event collection. -/
def resolveEvent (events : List EventRec) (ed : EventData) (now : Int) :
    EventRec × List EventRec :=
  match findEvent events ed.eventId with
  | some ev => (ev, events)
  | none =>
    let ev : EventRec :=
      { eventId := ed.eventId, eventType := ed.eventType, leadId := ed.leadId,
        timestamp := ed.timestamp.getD now, processed := false }
    (ev, events ++ [ev])

/-- The reason string built at lines 115 and 222. -/
def reasonString (eventType : String) (points : Int) : String :=
  eventType ++ " (+" ++ toString points ++ " points)"

/-- One iteration of the replay loop of `recalculateLeadScore`
(lines 202-226): look up the active rule for the event type; if none,
the event is skipped; otherwise apply the points with clamping and append
a regenerated history row. -/
def replayStep (MAX : Int) (rules : List Rule) (leadId : String)
    (acc : Int × List HistoryEntry) (e : EventRec) : Int × List HistoryEntry :=
  match findActiveRule rules e.eventType with
  | none => acc
  | some rule =>
    let prevScore := acc.1
    let total := clampScore MAX (prevScore + rule.points)
    (total,
      acc.2 ++ [{ leadId := leadId, score := total, previousScore := prevScore,
                  change := total - prevScore, eventId := e.eventId,
                  eventType := e.eventType,
                  reason := reasonString e.eventType rule.points,
                  timestamp := e.timestamp }])

/-- Stable insertion into a list that is ascending by timestamp: the new
element goes after every element whose timestamp is not greater. -/
def insertByTimestamp (e : EventRec) : List EventRec → List EventRec
  | [] => [e]
  | f :: rest =>
    if f.timestamp ≤ e.timestamp then f :: insertByTimestamp e rest
    else e :: f :: rest

/-- Event.find(..).sort(\x7b timestamp: 1 \x7d) (lines 194-196).  The
source sorts by timestamp only: events carry no sequence field and the
store gives no guarantee on the relative order of equal timestamps.  A
deterministic model must still pick one order, and this definition picks
insertion order for ties; that choice is the model's, not the code's —
`isTimestampSortOf` below states the only contract the source provides,
and `sortEventsByTimestamp` is one of its solutions. -/
def sortEventsByTimestamp (es : List EventRec) : List EventRec :=
  es.foldl (fun acc e => insertByTimestamp e acc) []

deriving instance DecidableEq for Except

/-- Outcome of `recalculateLeadScore`: the store after the call together
with the returned value or the thrown error. -/
structure RecalcOutcome where
  db : DB
  result : Except JsError RecalcResult
deriving DecidableEq

/-- ScoringEngine.recalculateLeadScore (lines 185-248): load the lead,
load its processed events sorted by timestamp, replay them from 0 with
clamping at every step, delete the old history of the lead, insert the
regenerated rows, and save the final total as the lead score. -/
def recalculateLeadScore (MAX : Int) (db : DB) (leadId : String) :
    RecalcOutcome :=
  match findLead db.leads leadId with
  | none => { db := db, result := .error .leadNotFound }
  | some lead =>
    let previousScore := lead.currentScore
    let events := sortEventsByTimestamp
      (db.events.filter (fun e => e.leadId == leadId && e.processed))
    let folded := events.foldl (replayStep MAX db.rules leadId) (0, [])
    let totalScore := folded.1
    let newHistory := folded.2
    let db1 : DB :=
      { db with
        history := db.history.filter (fun h => !(h.leadId == leadId)) ++ newHistory }
    let db2 := saveLeadScore db1 leadId totalScore
    { db := db2,
      result := .ok { leadId := leadId, previousScore := previousScore,
                      newScore := totalScore, eventsProcessed := events.length } }

/-- The observable store between `ScoreHistory.deleteMany` (line 228) and
`ScoreHistory.insertMany` / `lead.save()` (lines 231, 236): the history of
the lead is gone, the lead score is still the old one.  There is no
transaction around these calls, so a crash here leaves exactly this
store. -/
def recalcCrashAfterDelete (db : DB) (leadId : String) : DB :=
  { db with history := db.history.filter (fun h => !(h.leadId == leadId)) }

/-- Outcome of `processEvent`: the store after the call, the emitted
notifications, and the returned value or the thrown error. -/
structure ProcOutcome where
  db : DB
  notes : List Notification
  result : Except JsError ProcResult
deriving DecidableEq

/-- The in-order tail of `processEvent` (lines 94-146): clamp-add the rule
points, save the lead, then build the ScoreHistory literal — which throws
ReferenceError on the undeclared identifier `change`, so nothing after
line 106 is reached. -/
def inOrderApply (MAX : Int) (db : DB) (ed : EventData) (lead : Lead)
    (rule : Rule) : ProcOutcome :=
  let previousScore := lead.currentScore
  let newScore := clampScore MAX (previousScore + rule.points)
  let db1 := saveLeadScore db ed.leadId newScore
  { db := db1, notes := [], result := .error .referenceErrorChange }

/-- The out-of-order branch of `processEvent` (lines 59-92): mark the
event processed, recalculate the lead, notify and report with the
recalculation totals. -/
def outOfOrderApply (MAX : Int) (db : DB) (ed : EventData) (lead : Lead)
    (event : EventRec) : ProcOutcome :=
  let db1 := markEventProcessed db event.eventId
  match recalculateLeadScore MAX db1 ed.leadId with
  | { db := db2, result := .ok r } =>
    { db := db2,
      notes := [{ leadId := lead.leadId, previousScore := r.previousScore,
                  newScore := r.newScore, change := r.newScore - r.previousScore,
                  eventType := ed.eventType, timestamp := event.timestamp,
                  outOfOrder := true }],
      result := .ok (.outOfOrder lead.leadId r.previousScore r.newScore
        (r.newScore - r.previousScore) ed.eventType) }
  | { db := db2, result := .error e } =>
    { db := db2, notes := [], result := .error e }

/-- The duplicate gate of lines 14-22: a stored event with the same
eventId that is already processed.  `resolveEvent` re-reads the same
`existingEvent`, which is unchanged in between. -/
def isProcessedDuplicate (events : List EventRec) (eventId : String) : Bool :=
  match findEvent events eventId with
  | some ev => ev.processed
  | none => false

/-- ScoringEngine.processEvent (lines 10-151): duplicate gate, lead and
rule lookups, event creation or reuse, out-of-order detection against the
latest history timestamp, then one of the two application branches. -/
def processEvent (MAX : Int) (db : DB) (ed : EventData) (now : Int) :
    ProcOutcome :=
  if isProcessedDuplicate db.events ed.eventId then
    { db := db, notes := [], result := .ok .duplicate }
  else
    match findLead db.leads ed.leadId with
    | none => { db := db, notes := [], result := .error .leadNotFound }
    | some lead =>
      match findActiveRule db.rules ed.eventType with
      | none => { db := db, notes := [], result := .error .noActiveRule }
      | some rule =>
        let resolved := resolveEvent db.events ed now
        let event := resolved.1
        let db1 : DB := { db with events := resolved.2 }
        let isOutOfOrder :=
          match latestHistoryTimestamp db1.history ed.leadId with
          | some t => decide (event.timestamp < t)
          | none => false
        if isOutOfOrder then outOfOrderApply MAX db1 ed lead event
        else inOrderApply MAX db1 ed lead rule

/-!  Specification-side definitions, written from the words of the spec
and compared with the source model by the refinement theorems below. -/

/-- Modelled from the spec: the final total of replaying a list of events
from a given score, applying the active rule points of each event with
clamping at every intermediate step; events without an active rule
contribute nothing. -/
def specReplayTotal (MAX : Int) (rules : List Rule) (s : Int) :
    List EventRec → Int
  | [] => s
  | e :: rest =>
    match findActiveRule rules e.eventType with
    | none => specReplayTotal MAX rules s rest
    | some r => specReplayTotal MAX rules (clampScore MAX (s + r.points)) rest

/-- Modelled from the spec: the regenerated ScoreHistory sequence of the
same replay — one row per event that has an active rule, carrying the
clamped running total and the step delta. -/
def specHistory (MAX : Int) (rules : List Rule) (leadId : String) (s : Int) :
    List EventRec → List HistoryEntry
  | [] => []
  | e :: rest =>
    match findActiveRule rules e.eventType with
    | none => specHistory MAX rules leadId s rest
    | some r =>
      let total := clampScore MAX (s + r.points)
      { leadId := leadId, score := total, previousScore := s,
        change := total - s, eventId := e.eventId, eventType := e.eventType,
        reason := reasonString e.eventType r.points, timestamp := e.timestamp }
        :: specHistory MAX rules leadId total rest

/-- Modelled from the spec: the score of the ScoreHistory entry of the
lead with the greatest (timestamp, sequence) — the sequence number being
the ledger-write position, so among equal timestamps the later-written row
wins — or 0 when the lead has no entries. -/
def latestScoreForLead (history : List HistoryEntry) (leadId : String) : Int :=
  ((history.filter (fun h => h.leadId == leadId)).foldl
    (fun acc h =>
      match acc with
      | none => some (h.timestamp, h.score)
      | some (t, s) =>
        if t ≤ h.timestamp then some (h.timestamp, h.score) else some (t, s))
    none).elim 0 (fun p => p.2)

/-- Modelled from the source's `.sort(\x7b timestamp: 1 \x7d)` contract:
the store returns some permutation of the rows that is ascending by
timestamp.  Nothing more is guaranteed — there is no sequence field and
no secondary sort key, so rows with equal timestamps may come back in any
relative order. -/
def isTimestampSortOf (es out : List EventRec) : Prop :=
  List.Perm out es ∧
  List.Pairwise (fun a b => a.timestamp ≤ b.timestamp) out

instance (es out : List EventRec) : Decidable (isTimestampSortOf es out) := by
  unfold isTimestampSortOf
  exact instDecidableAnd

/-- The clamp-bound invariant of the spec: the current score of every lead
and the score of every history row lie in [0, MAX]. -/
def scoresInRange (MAX : Int) (db : DB) : Prop :=
  (∀ l ∈ db.leads, 0 ≤ l.currentScore ∧ l.currentScore ≤ MAX) ∧
  (∀ h ∈ db.history, 0 ≤ h.score ∧ h.score ≤ MAX)

instance (MAX : Int) (db : DB) : Decidable (scoresInRange MAX db) := by
  unfold scoresInRange
  exact instDecidableAnd

/-! Helper lemmas. -/

theorem clampScore_nonneg (MAX x : Int) (hMAX : 0 ≤ MAX) :
    0 ≤ clampScore MAX x := by
  unfold clampScore
  dsimp only
  split <;> split <;> omega

theorem clampScore_le (MAX x : Int) (hMAX : 0 ≤ MAX) :
    clampScore MAX x ≤ MAX := by
  unfold clampScore
  dsimp only
  split <;> split <;> omega

theorem replay_foldl_eq (MAX : Int) (rules : List Rule) (lid : String) :
    ∀ (es : List EventRec) (s : Int) (acc : List HistoryEntry),
      es.foldl (replayStep MAX rules lid) (s, acc)
        = (specReplayTotal MAX rules s es,
           acc ++ specHistory MAX rules lid s es) := by
  intro es
  induction es with
  | nil => intro s acc; simp [specReplayTotal, specHistory]
  | cons e rest ih =>
    intro s acc
    simp only [List.foldl_cons, replayStep, specReplayTotal, specHistory]
    cases hr : findActiveRule rules e.eventType with
    | none => simpa using ih s acc
    | some r => simp [ih, List.append_assoc]

theorem insertByTimestamp_perm (e : EventRec) (l : List EventRec) :
    List.Perm (insertByTimestamp e l) (e :: l) := by
  induction l with
  | nil => simp [insertByTimestamp]
  | cons f rest ih =>
    unfold insertByTimestamp
    split
    · exact List.Perm.trans (List.Perm.cons f ih) (List.Perm.swap e f rest)
    · exact List.Perm.refl _

theorem sortFold_perm (es : List EventRec) :
    ∀ acc : List EventRec,
      List.Perm (es.foldl (fun acc e => insertByTimestamp e acc) acc) (acc ++ es) := by
  induction es with
  | nil => intro acc; simp
  | cons e rest ih =>
    intro acc
    simp only [List.foldl_cons]
    refine (ih (insertByTimestamp e acc)).trans ?_
    refine List.Perm.trans (List.Perm.append_right rest (insertByTimestamp_perm e acc)) ?_
    simpa using List.perm_middle.symm

theorem sortEventsByTimestamp_perm (es : List EventRec) :
    List.Perm (sortEventsByTimestamp es) es := by
  simpa using sortFold_perm es []

theorem mem_insertByTimestamp {x e : EventRec} {l : List EventRec}
    (hx : x ∈ insertByTimestamp e l) : x = e ∨ x ∈ l :=
  List.mem_cons.1 ((List.Perm.mem_iff (insertByTimestamp_perm e l)).1 hx)

theorem insertByTimestamp_pairwise (e : EventRec) (l : List EventRec)
    (hl : List.Pairwise (fun a b => a.timestamp ≤ b.timestamp) l) :
    List.Pairwise (fun a b => a.timestamp ≤ b.timestamp) (insertByTimestamp e l) := by
  induction l with
  | nil => simp [insertByTimestamp]
  | cons f rest ih =>
    rw [List.pairwise_cons] at hl
    unfold insertByTimestamp
    split
    · rename_i hfe
      rw [List.pairwise_cons]
      refine ⟨?_, ih hl.2⟩
      intro x hx
      rcases mem_insertByTimestamp hx with rfl | hx
      · exact hfe
      · exact hl.1 x hx
    · rename_i hfe
      rw [List.pairwise_cons]
      refine ⟨?_, List.pairwise_cons.2 hl⟩
      intro x hx
      rcases hx with _ | hx
      · omega
      · have := hl.1 x (by assumption)
        omega

theorem specHistory_leadId (MAX : Int) (rules : List Rule) (lid : String) :
    ∀ (es : List EventRec) (s : Int),
      ∀ h ∈ specHistory MAX rules lid s es, h.leadId = lid := by
  intro es
  induction es with
  | nil => intro s h hh; simp [specHistory] at hh
  | cons e rest ih =>
    intro s h hh
    simp only [specHistory] at hh
    cases hr : findActiveRule rules e.eventType with
    | none => rw [hr] at hh; exact ih s h hh
    | some r =>
      rw [hr] at hh
      rcases List.mem_cons.1 hh with rfl | hh
      · rfl
      · exact ih _ h hh

theorem specHistory_score_range (MAX : Int) (rules : List Rule) (lid : String)
    (hMAX : 0 ≤ MAX) :
    ∀ (es : List EventRec) (s : Int),
      ∀ h ∈ specHistory MAX rules lid s es, 0 ≤ h.score ∧ h.score ≤ MAX := by
  intro es
  induction es with
  | nil => intro s h hh; simp [specHistory] at hh
  | cons e rest ih =>
    intro s h hh
    simp only [specHistory] at hh
    cases hr : findActiveRule rules e.eventType with
    | none => rw [hr] at hh; exact ih s h hh
    | some r =>
      rw [hr] at hh
      rcases List.mem_cons.1 hh with rfl | hh
      · exact ⟨clampScore_nonneg MAX _ hMAX, clampScore_le MAX _ hMAX⟩
      · exact ih _ h hh

theorem specReplayTotal_range (MAX : Int) (rules : List Rule) (hMAX : 0 ≤ MAX) :
    ∀ (es : List EventRec) (s : Int), 0 ≤ s → s ≤ MAX →
      0 ≤ specReplayTotal MAX rules s es ∧ specReplayTotal MAX rules s es ≤ MAX := by
  intro es
  induction es with
  | nil => intro s h0 h1; simpa [specReplayTotal] using ⟨h0, h1⟩
  | cons e rest ih =>
    intro s h0 h1
    simp only [specReplayTotal]
    cases hr : findActiveRule rules e.eventType with
    | none => exact ih s h0 h1
    | some r =>
      exact ih _ (clampScore_nonneg MAX _ hMAX) (clampScore_le MAX _ hMAX)

theorem updateScoreFn_leadId (lid : String) (s : Int) (l : Lead) :
    (updateScoreFn lid s l).leadId = l.leadId := by
  unfold updateScoreFn; split <;> rfl

theorem markProcessedFn_eventId (eid : String) (e : EventRec) :
    (markProcessedFn eid e).eventId = e.eventId := by
  unfold markProcessedFn; split <;> rfl

theorem findLead_map_updateScoreFn (leads : List Lead) (lid lid2 : String) (s : Int) :
    findLead (leads.map (updateScoreFn lid s)) lid2
      = (findLead leads lid2).map (updateScoreFn lid s) := by
  unfold findLead
  rw [List.find?_map]
  have hp : ((fun l : Lead => l.leadId == lid2) ∘ updateScoreFn lid s)
      = (fun l : Lead => l.leadId == lid2) := by
    funext l; simp [Function.comp, updateScoreFn_leadId]
  rw [hp]

theorem findEvent_map_markProcessedFn (events : List EventRec) (eid eid2 : String) :
    findEvent (events.map (markProcessedFn eid)) eid2
      = (findEvent events eid2).map (markProcessedFn eid) := by
  unfold findEvent
  rw [List.find?_map]
  have hp : ((fun e : EventRec => e.eventId == eid2) ∘ markProcessedFn eid)
      = (fun e : EventRec => e.eventId == eid2) := by
    funext e; simp [Function.comp, markProcessedFn_eventId]
  rw [hp]

theorem findLead_some_leadId {leads : List Lead} {lid : String} {lead : Lead}
    (h : findLead leads lid = some lead) : lead.leadId = lid := by
  have := List.find?_some h
  simpa using this

theorem findEvent_some_eventId {events : List EventRec} {eid : String} {ev : EventRec}
    (h : findEvent events eid = some ev) : ev.eventId = eid := by
  have := List.find?_some h
  simpa using this

theorem recalculateLeadScore_eq (MAX : Int) (db : DB) (lid : String) (lead : Lead)
    (hlead : findLead db.leads lid = some lead) :
    recalculateLeadScore MAX db lid =
      (let sorted := sortEventsByTimestamp
          (db.events.filter (fun e => e.leadId == lid && e.processed));
       let total := specReplayTotal MAX db.rules 0 sorted;
       { db := { leads := db.leads.map (updateScoreFn lid total),
                 events := db.events,
                 history := db.history.filter (fun h => !(h.leadId == lid))
                   ++ specHistory MAX db.rules lid 0 sorted,
                 rules := db.rules },
         result := .ok { leadId := lid, previousScore := lead.currentScore,
                         newScore := total, eventsProcessed := sorted.length } }) := by
  unfold recalculateLeadScore
  rw [hlead]
  simp only [replay_foldl_eq, saveLeadScore, List.nil_append]

theorem sortEventsByTimestamp_pairwise (es : List EventRec) :
    List.Pairwise (fun a b => a.timestamp ≤ b.timestamp)
      (sortEventsByTimestamp es) := by
  unfold sortEventsByTimestamp
  suffices h : ∀ acc, List.Pairwise (fun a b : EventRec => a.timestamp ≤ b.timestamp) acc →
      List.Pairwise (fun a b : EventRec => a.timestamp ≤ b.timestamp)
        (es.foldl (fun acc e => insertByTimestamp e acc) acc) by
    exact h [] (by simp)
  induction es with
  | nil => intro acc hacc; simpa using hacc
  | cons e rest ih =>
    intro acc hacc
    exact ih _ (insertByTimestamp_pairwise e acc hacc)

/-! Concrete fixtures used by the evaluation theorems and the witnesses. -/

def ruleEmailOpen : Rule :=
  { eventType := "email_open", points := 10, active := true }

/-- A store with one fresh lead, the default email_open rule and no
events or history. -/
def dbFresh : DB :=
  { leads := [{ leadId := "L1", currentScore := 0 }], events := [],
    history := [], rules := [ruleEmailOpen] }

def edInOrder : EventData :=
  { eventId := "e1", eventType := "email_open", leadId := "L1",
    timestamp := some 5 }

/-- A store where lead L1 already has one processed event at time 10 and
the matching history row. -/
def dbOneProcessed : DB :=
  { leads := [{ leadId := "L1", currentScore := 10 }],
    events := [{ eventId := "e1", eventType := "email_open", leadId := "L1",
                 timestamp := 10, processed := true }],
    history := [{ leadId := "L1", score := 10, previousScore := 0, change := 10,
                  eventId := "e1", eventType := "email_open",
                  reason := reasonString "email_open" 10, timestamp := 10 }],
    rules := [ruleEmailOpen] }

/-- A store with one lead and an empty rule table. -/
def dbNoRules : DB :=
  { leads := [{ leadId := "L1", currentScore := 0 }], events := [],
    history := [], rules := [] }

def edNoRule : EventData :=
  { eventId := "e9", eventType := "email_open", leadId := "L1",
    timestamp := some 3 }

/-- C1: the in-order path of processEvent does not do what the claim
says.  On a fresh lead with an active email_open(+10) rule, an in-order
event drives the path of lines 94-146: the lead score is persisted as 10,
but building the ScoreHistory literal throws ReferenceError on the
undeclared identifier `change` (line 112), so no history row is appended,
the event is not marked processed, no notification is emitted, and the
call throws instead of returning the result object. -/
theorem processEvent_inOrder_referenceError :
    processEvent 1000 dbFresh edInOrder 0 =
      { db := { leads := [{ leadId := "L1", currentScore := 10 }],
                events := [{ eventId := "e1", eventType := "email_open",
                             leadId := "L1", timestamp := 5, processed := false }],
                history := [], rules := [ruleEmailOpen] },
        notes := [], result := .error .referenceErrorChange } := by
  decide

/-- C6: after the failing in-order processEvent of the same input, the
lead score is 10 while the lead has no history rows, so the invariant
"currentScore equals the score of the greatest (timestamp, sequence)
history entry, or 0 if none" is broken by the code. -/
theorem currentScore_latestHistory_invariant_broken :
    ((findLead (processEvent 1000 dbFresh edInOrder 0).db.leads "L1").map
        (fun l => l.currentScore) = some 10)
    ∧ latestScoreForLead (processEvent 1000 dbFresh edInOrder 0).db.history "L1" = 0
    ∧ ¬ ((findLead (processEvent 1000 dbFresh edInOrder 0).db.leads "L1").map
          (fun l => l.currentScore)
        = some (latestScoreForLead
            (processEvent 1000 dbFresh edInOrder 0).db.history "L1")) := by
  decide

/-- C7: recalculation is delete-then-reinsert with no transaction: the
store observable between deleteMany (line 228) and insertMany/save
(lines 231-236) is neither the old consistent store nor the recalculated
one — the ledger of the lead is gone while currentScore still holds the
old value. -/
theorem recalc_crash_leaves_mixture :
    recalcCrashAfterDelete dbOneProcessed "L1" ≠ dbOneProcessed
    ∧ recalcCrashAfterDelete dbOneProcessed "L1"
        ≠ (recalculateLeadScore 1000 dbOneProcessed "L1").db
    ∧ (recalcCrashAfterDelete dbOneProcessed "L1").history = []
    ∧ (findLead (recalcCrashAfterDelete dbOneProcessed "L1").leads "L1").map
        (fun l => l.currentScore) = some 10 := by
  decide

/-- C9, counterexample: with no active rule for the event type,
processEvent throws NoActiveRule (line 31) before the event row is
created (line 47), so the event is NOT recorded in the Event ledger,
contrary to the claim. -/
theorem noActiveRule_event_not_ledgered_cex :
    processEvent 1000 dbNoRules edNoRule 0 =
      { db := dbNoRules, notes := [], result := .error .noActiveRule }
    ∧ findEvent (processEvent 1000 dbNoRules edNoRule 0).db.events "e9" = none := by
  decide

/-- C9, amended: when the duplicate gate does not fire and the lead
exists but no active rule matches the event type, processEvent throws
NoActiveRule and leaves the store — the Event ledger included — entirely
unchanged. -/
theorem processEvent_noActiveRule_unchanged (MAX now : Int) (db : DB)
    (ed : EventData) (lead : Lead)
    (hdup : isProcessedDuplicate db.events ed.eventId = false)
    (hlead : findLead db.leads ed.leadId = some lead)
    (hrule : findActiveRule db.rules ed.eventType = none) :
    processEvent MAX db ed now =
      { db := db, notes := [], result := .error .noActiveRule } := by
  unfold processEvent
  simp [hdup, hlead, hrule]

/-- Witness for the amended C9 theorem at a concrete input. -/
theorem processEvent_noActiveRule_unchanged_witness :
    (isProcessedDuplicate dbNoRules.events "e9" = false
      ∧ findLead dbNoRules.leads "L1" = some { leadId := "L1", currentScore := 0 }
      ∧ findActiveRule dbNoRules.rules "email_open" = none)
    ∧ processEvent 1000 dbNoRules edNoRule 0 =
        { db := dbNoRules, notes := [], result := .error .noActiveRule } :=
  ⟨⟨by decide, by decide, by decide⟩,
    processEvent_noActiveRule_unchanged 1000 0 dbNoRules edNoRule
      { leadId := "L1", currentScore := 0 } (by decide) (by decide) (by decide)⟩

/-- In the store returned by `resolveEvent`, the eventId of the payload
finds exactly the record the rest of `processEvent` works with, and that
record carries the payload eventId. -/
theorem resolveEvent_find (events : List EventRec) (ed : EventData) (now : Int) :
    findEvent (resolveEvent events ed now).2 ed.eventId
      = some (resolveEvent events ed now).1
    ∧ (resolveEvent events ed now).1.eventId = ed.eventId := by
  unfold resolveEvent
  cases hfe : findEvent events ed.eventId with
  | some ev => exact ⟨hfe, findEvent_some_eventId hfe⟩
  | none =>
    refine ⟨?_, rfl⟩
    unfold findEvent at hfe ⊢
    rw [List.find?_append, hfe]
    simp [List.find?]

/-- C2: processing an eventId whose stored event is already processed is
a pure observation — the duplicate result is returned and the store, the
history ledger included, is left byte-for-byte unchanged, so no second
score change or history row can ever be attributed to that eventId. -/
theorem processEvent_duplicate_pure (MAX now : Int) (db : DB) (ed : EventData)
    (ev : EventRec)
    (hfind : findEvent db.events ed.eventId = some ev)
    (hproc : ev.processed = true) :
    processEvent MAX db ed now =
      { db := db, notes := [], result := .ok .duplicate } := by
  unfold processEvent
  simp [isProcessedDuplicate, hfind, hproc]

def evProcessed : EventRec :=
  { eventId := "e1", eventType := "email_open", leadId := "L1",
    timestamp := 10, processed := true }

def edDup : EventData :=
  { eventId := "e1", eventType := "email_open", leadId := "L1",
    timestamp := some 10 }

/-- Witness for the C2 theorem at a concrete input. -/
theorem processEvent_duplicate_pure_witness :
    (findEvent dbOneProcessed.events "e1" = some evProcessed
      ∧ evProcessed.processed = true)
    ∧ processEvent 1000 dbOneProcessed edDup 0 =
        { db := dbOneProcessed, notes := [], result := .ok .duplicate } :=
  ⟨⟨by decide, by decide⟩,
    processEvent_duplicate_pure 1000 0 dbOneProcessed edDup evProcessed
      (by decide) (by decide)⟩

/-- C10: out-of-order detection is a strict comparison of the event
timestamp alone: an event whose timestamp equals the latest history
timestamp of the lead is classified in-order, so the in-order branch runs
— the history is not regenerated by any recalculation, and the clamp-add
local delta lands on the lead score. -/
theorem equal_timestamp_classified_in_order (MAX now : Int) (db : DB)
    (ed : EventData) (lead : Lead) (rule : Rule) (t : Int)
    (hdup : isProcessedDuplicate db.events ed.eventId = false)
    (hlead : findLead db.leads ed.leadId = some lead)
    (hrule : findActiveRule db.rules ed.eventType = some rule)
    (hlatest : latestHistoryTimestamp db.history ed.leadId = some t)
    (hts : (resolveEvent db.events ed now).1.timestamp = t) :
    processEvent MAX db ed now =
      inOrderApply MAX { db with events := (resolveEvent db.events ed now).2 }
        ed lead rule
    ∧ (processEvent MAX db ed now).db.history = db.history
    ∧ findLead (processEvent MAX db ed now).db.leads ed.leadId
        = some { lead with
                 currentScore := clampScore MAX (lead.currentScore + rule.points) } := by
  have h1 : processEvent MAX db ed now =
      inOrderApply MAX { db with events := (resolveEvent db.events ed now).2 }
        ed lead rule := by
    unfold processEvent
    simp [hdup, hlead, hrule, hlatest, hts]
  refine ⟨h1, ?_, ?_⟩
  · rw [h1]
    simp [inOrderApply, saveLeadScore]
  · rw [h1]
    simp only [inOrderApply, saveLeadScore]
    rw [findLead_map_updateScoreFn, hlead]
    simp [updateScoreFn, findLead_some_leadId hlead]

/-- C3: an event strictly earlier than the latest history timestamp of
its lead takes the out-of-order branch: the stored event is marked
processed, the Recalculation Engine is invoked on the lead, the final
store is exactly the recalculated one, and the result and notification
report outOfOrder with the before/after totals of the recalculation. -/
theorem processEvent_outOfOrder_recalculates (MAX now : Int) (db : DB)
    (ed : EventData) (lead : Lead) (rule : Rule) (t : Int)
    (hdup : isProcessedDuplicate db.events ed.eventId = false)
    (hlead : findLead db.leads ed.leadId = some lead)
    (hrule : findActiveRule db.rules ed.eventType = some rule)
    (hlatest : latestHistoryTimestamp db.history ed.leadId = some t)
    (hts : (resolveEvent db.events ed now).1.timestamp < t) :
    ∃ dbR r,
      recalculateLeadScore MAX
        (markEventProcessed { db with events := (resolveEvent db.events ed now).2 }
          (resolveEvent db.events ed now).1.eventId) ed.leadId
        = { db := dbR, result := .ok r }
      ∧ processEvent MAX db ed now =
          { db := dbR,
            notes := [{ leadId := lead.leadId, previousScore := r.previousScore,
                        newScore := r.newScore,
                        change := r.newScore - r.previousScore,
                        eventType := ed.eventType,
                        timestamp := (resolveEvent db.events ed now).1.timestamp,
                        outOfOrder := true }],
            result := .ok (.outOfOrder lead.leadId r.previousScore r.newScore
                      (r.newScore - r.previousScore) ed.eventType) }
      ∧ r.previousScore = lead.currentScore
      ∧ (findEvent dbR.events ed.eventId).map (fun e => e.processed) = some true := by
  have hleadm : findLead (markEventProcessed
      { db with events := (resolveEvent db.events ed now).2 }
      (resolveEvent db.events ed now).1.eventId).leads ed.leadId = some lead := hlead
  have hrec := recalculateLeadScore_eq MAX
    (markEventProcessed { db with events := (resolveEvent db.events ed now).2 }
      (resolveEvent db.events ed now).1.eventId) ed.leadId lead hleadm
  simp only [] at hrec
  have hoo : (match latestHistoryTimestamp db.history ed.leadId with
      | some t => decide ((resolveEvent db.events ed now).1.timestamp < t)
      | none => false) = true := by
    rw [hlatest]; simpa using hts
  have hpe : processEvent MAX db ed now =
      outOfOrderApply MAX { db with events := (resolveEvent db.events ed now).2 }
        ed lead (resolveEvent db.events ed now).1 := by
    unfold processEvent
    simp only [hdup, Bool.false_eq_true, if_false, hlead, hrule]
    rw [if_pos hoo]
  refine ⟨_, _, hrec, ?_, rfl, ?_⟩
  · rw [hpe]
    simp only [outOfOrderApply]
    rw [hrec]
  · simp only [markEventProcessed]
    rw [findEvent_map_markProcessedFn]
    rw [(resolveEvent_find db.events ed now).1]
    have he := (resolveEvent_find db.events ed now).2
    simp [markProcessedFn, he]

def edEarly : EventData :=
  { eventId := "e2", eventType := "email_open", leadId := "L1",
    timestamp := some 3 }

def leadL1Ten : Lead := { leadId := "L1", currentScore := 10 }

/-- Witness for the C3 theorem at a concrete input: an event at time 3
against a lead whose latest history row is at time 10. -/
theorem processEvent_outOfOrder_recalculates_witness :
    (isProcessedDuplicate dbOneProcessed.events edEarly.eventId = false
      ∧ findLead dbOneProcessed.leads edEarly.leadId = some leadL1Ten
      ∧ findActiveRule dbOneProcessed.rules edEarly.eventType = some ruleEmailOpen
      ∧ latestHistoryTimestamp dbOneProcessed.history edEarly.leadId = some 10
      ∧ (resolveEvent dbOneProcessed.events edEarly 0).1.timestamp < 10)
    ∧ ∃ dbR r,
        recalculateLeadScore 1000
          (markEventProcessed
            { dbOneProcessed with
              events := (resolveEvent dbOneProcessed.events edEarly 0).2 }
            (resolveEvent dbOneProcessed.events edEarly 0).1.eventId) edEarly.leadId
          = { db := dbR, result := .ok r }
        ∧ processEvent 1000 dbOneProcessed edEarly 0 =
            { db := dbR,
              notes := [{ leadId := leadL1Ten.leadId,
                          previousScore := r.previousScore,
                          newScore := r.newScore,
                          change := r.newScore - r.previousScore,
                          eventType := edEarly.eventType,
                          timestamp := (resolveEvent dbOneProcessed.events edEarly 0).1.timestamp,
                          outOfOrder := true }],
              result := .ok (.outOfOrder leadL1Ten.leadId r.previousScore
                        r.newScore (r.newScore - r.previousScore) edEarly.eventType) }
        ∧ r.previousScore = leadL1Ten.currentScore
        ∧ (findEvent dbR.events edEarly.eventId).map (fun e => e.processed)
            = some true :=
  ⟨⟨by decide, by decide, by decide, by decide, by decide⟩,
    processEvent_outOfOrder_recalculates 1000 0 dbOneProcessed edEarly leadL1Ten
      ruleEmailOpen 10 (by decide) (by decide) (by decide) (by decide) (by decide)⟩

def rulePurchase80 : Rule :=
  { eventType := "purchase", points := 80, active := true }

def ruleEmailOpenNeg50 : Rule :=
  { eventType := "email_open", points := -50, active := true }

def rulesTie : List Rule := [rulePurchase80, ruleEmailOpenNeg50]

def evTieP : EventRec :=
  { eventId := "p1", eventType := "purchase", leadId := "L1",
    timestamp := 5, processed := true }

def evTieE : EventRec :=
  { eventId := "m1", eventType := "email_open", leadId := "L1",
    timestamp := 5, processed := true }

def eventsTie : List EventRec := [evTieP, evTieE]

/-- C4, counterexample: the source loads the replay input with
`.sort(\x7b timestamp: 1 \x7d)` only — there is no sequence field and no
secondary sort key — so its contract (`isTimestampSortOf`) does not
determine the claimed (timestamp, sequence) order.  Two processed events
with equal timestamps admit two contract-satisfying load orders, one of
which differs from the ledger (timestamp, sequence) order, and under
clamping (MAX = 100, purchase = +80, email_open = -50) the two orders
replay to different final totals (30 versus 80) and different regenerated
history sequences. -/
theorem recalculate_tie_order_counterexample :
    isTimestampSortOf eventsTie [evTieP, evTieE]
    ∧ isTimestampSortOf eventsTie [evTieE, evTieP]
    ∧ [evTieE, evTieP] ≠ sortEventsByTimestamp eventsTie
    ∧ specReplayTotal 100 rulesTie 0 [evTieP, evTieE] = 30
    ∧ specReplayTotal 100 rulesTie 0 [evTieE, evTieP] = 80
    ∧ specHistory 100 rulesTie "L1" 0 [evTieP, evTieE]
        ≠ specHistory 100 rulesTie "L1" 0 [evTieE, evTieP] := by
  decide

/-- C4, amended: recalculation loads the lead's processed events in some
timestamp-ascending order — the only ordering the source's
timestamp-only sort guarantees; the model resolves the unspecified tie
order by ledger insertion — and replays that order from score 0 with
clamping at every intermediate step (the spec-side specReplayTotal and
specHistory), replaces the history of the lead with the regenerated
sequence, stores the final total as the lead score, and returns
previous/new totals and the replayed event count. -/
theorem recalculate_replays_timestamp_order (MAX : Int) (db : DB) (lid : String)
    (lead : Lead) (hlead : findLead db.leads lid = some lead) :
    ∃ order : List EventRec,
      isTimestampSortOf (db.events.filter (fun e => e.leadId == lid && e.processed)) order
      ∧ recalculateLeadScore MAX db lid =
          { db := { leads := db.leads.map (updateScoreFn lid
                      (specReplayTotal MAX db.rules 0 order)),
                    events := db.events,
                    history := db.history.filter (fun h => !(h.leadId == lid))
                      ++ specHistory MAX db.rules lid 0 order,
                    rules := db.rules },
            result := .ok { leadId := lid, previousScore := lead.currentScore,
                            newScore := specReplayTotal MAX db.rules 0 order,
                            eventsProcessed := order.length } }
      ∧ findLead (recalculateLeadScore MAX db lid).db.leads lid
          = some { lead with currentScore :=
              (specReplayTotal MAX db.rules 0 order) } := by
  refine ⟨sortEventsByTimestamp
      (db.events.filter (fun e => e.leadId == lid && e.processed)),
    ⟨sortEventsByTimestamp_perm _, sortEventsByTimestamp_pairwise _⟩, ?_, ?_⟩
  · have h1 := recalculateLeadScore_eq MAX db lid lead hlead
    simpa using h1
  · have h1 := recalculateLeadScore_eq MAX db lid lead hlead
    rw [h1]
    simp only []
    rw [findLead_map_updateScoreFn, hlead]
    simp [updateScoreFn, findLead_some_leadId hlead]

/-- Witness for the amended C4 theorem at a concrete input (a lead with
one processed event). -/
theorem recalculate_replays_timestamp_order_witness :
    (findLead dbOneProcessed.leads "L1" = some leadL1Ten)
    ∧ ∃ order : List EventRec,
        isTimestampSortOf
          (dbOneProcessed.events.filter (fun e => e.leadId == "L1" && e.processed)) order
        ∧ recalculateLeadScore 1000 dbOneProcessed "L1" =
            { db := { leads := dbOneProcessed.leads.map (updateScoreFn "L1"
                        (specReplayTotal 1000 dbOneProcessed.rules 0 order)),
                      events := dbOneProcessed.events,
                      history := dbOneProcessed.history.filter (fun h => !(h.leadId == "L1"))
                        ++ specHistory 1000 dbOneProcessed.rules "L1" 0 order,
                      rules := dbOneProcessed.rules },
              result := .ok { leadId := "L1",
                              previousScore := leadL1Ten.currentScore,
                              newScore := specReplayTotal 1000 dbOneProcessed.rules 0 order,
                              eventsProcessed := order.length } }
        ∧ findLead (recalculateLeadScore 1000 dbOneProcessed "L1").db.leads "L1"
            = some { leadL1Ten with currentScore :=
                (specReplayTotal 1000 dbOneProcessed.rules 0 order) } :=
  ⟨by decide,
    recalculate_replays_timestamp_order 1000 dbOneProcessed "L1" leadL1Ten
      (by decide)⟩

/-- The store of an outOfOrderApply outcome is the store of the inner
recalculation on the marked-processed store, whether it returned or
threw. -/
theorem outOfOrderApply_db (MAX : Int) (db : DB) (ed : EventData) (lead : Lead)
    (event : EventRec) :
    (outOfOrderApply MAX db ed lead event).db
      = (recalculateLeadScore MAX (markEventProcessed db event.eventId) ed.leadId).db := by
  simp only [outOfOrderApply]
  rcases h : recalculateLeadScore MAX (markEventProcessed db event.eventId) ed.leadId
    with ⟨dbr, res⟩
  cases res <;> rfl

theorem recalculate_preserves_range (MAX : Int) (db : DB) (lid : String)
    (hMAX : 0 ≤ MAX) (hdb : scoresInRange MAX db) :
    scoresInRange MAX (recalculateLeadScore MAX db lid).db := by
  cases hl : findLead db.leads lid with
  | none =>
    unfold recalculateLeadScore
    rw [hl]
    exact hdb
  | some lead =>
    rw [recalculateLeadScore_eq MAX db lid lead hl]
    simp only []
    refine ⟨?_, ?_⟩
    · intro l hm
      rcases List.mem_map.1 hm with ⟨orig, ho, rfl⟩
      unfold updateScoreFn
      split
      · exact specReplayTotal_range MAX db.rules hMAX _ 0 le_rfl hMAX
      · exact hdb.1 orig ho
    · intro h hm
      rcases List.mem_append.1 hm with hm | hm
      · exact hdb.2 h (List.mem_filter.1 hm).1
      · exact specHistory_score_range MAX db.rules lid hMAX _ 0 h hm

theorem processEvent_preserves_range (MAX now : Int) (db : DB) (ed : EventData)
    (hMAX : 0 ≤ MAX) (hdb : scoresInRange MAX db) :
    scoresInRange MAX (processEvent MAX db ed now).db := by
  unfold processEvent
  cases hgate : isProcessedDuplicate db.events ed.eventId with
  | true => exact hdb
  | false =>
    simp only [hgate, Bool.false_eq_true, if_false]
    cases hl : findLead db.leads ed.leadId with
    | none => exact hdb
    | some lead =>
      cases hr : findActiveRule db.rules ed.eventType with
      | none => exact hdb
      | some rule =>
        simp only []
        split
        · rw [outOfOrderApply_db]
          exact recalculate_preserves_range MAX _ ed.leadId hMAX hdb
        · unfold inOrderApply
          simp only [saveLeadScore]
          refine ⟨?_, ?_⟩
          · intro l hm
            rcases List.mem_map.1 hm with ⟨orig, ho, rfl⟩
            unfold updateScoreFn
            split
            · exact ⟨clampScore_nonneg MAX _ hMAX, clampScore_le MAX _ hMAX⟩
            · exact hdb.1 orig ho
          · exact hdb.2

/-- C5: for every store whose scores are within [0, MAX] and every event
payload, lead and rule configuration (negative points included), both
processEvent — on any of its paths, the failing ones included — and
recalculateLeadScore leave every lead score and every history score
within [0, MAX]. -/
theorem scores_stay_in_range (MAX now : Int) (db : DB) (ed : EventData)
    (lid : String) (hMAX : 0 ≤ MAX) (hdb : scoresInRange MAX db) :
    scoresInRange MAX (processEvent MAX db ed now).db
    ∧ scoresInRange MAX (recalculateLeadScore MAX db lid).db :=
  ⟨processEvent_preserves_range MAX now db ed hMAX hdb,
    recalculate_preserves_range MAX db lid hMAX hdb⟩

/-- Witness for the C5 theorem at a concrete input. -/
theorem scores_stay_in_range_witness :
    (0 ≤ (1000 : Int) ∧ scoresInRange 1000 dbOneProcessed)
    ∧ scoresInRange 1000 (processEvent 1000 dbOneProcessed edEarly 0).db
    ∧ scoresInRange 1000 (recalculateLeadScore 1000 dbOneProcessed "L1").db :=
  ⟨⟨by decide, by decide⟩,
    scores_stay_in_range 1000 0 dbOneProcessed edEarly "L1" (by decide) (by decide)⟩

theorem updateScoreFn_comp (lid : String) (s : Int) :
    updateScoreFn lid s ∘ updateScoreFn lid s = updateScoreFn lid s := by
  funext l
  simp only [Function.comp]
  unfold updateScoreFn
  by_cases h : l.leadId == lid
  · simp [h]
  · simp [h]

theorem filter_self_idem {α : Type} (p : α → Bool) (l : List α) :
    (l.filter p).filter p = l.filter p := by
  rw [List.filter_filter]
  simp

theorem specHistory_filter_out (MAX : Int) (rules : List Rule) (lid : String)
    (es : List EventRec) (s : Int) :
    (specHistory MAX rules lid s es).filter (fun h => !(h.leadId == lid)) = [] := by
  rw [List.filter_eq_nil_iff]
  intro a ha
  have := specHistory_leadId MAX rules lid es s a ha
  simp [this]

/-- C8: recalculating a lead twice in a row, with no events ingested and
no rule edits in between, leaves the store of the first recalculation
untouched — the regenerated ScoreHistory and the stored currentScore are
identical. -/
theorem recalculate_idempotent (MAX : Int) (db : DB) (lid : String) :
    (recalculateLeadScore MAX (recalculateLeadScore MAX db lid).db lid).db
      = (recalculateLeadScore MAX db lid).db := by
  cases hl : findLead db.leads lid with
  | none =>
    have h1 : recalculateLeadScore MAX db lid =
        { db := db, result := .error .leadNotFound } := by
      unfold recalculateLeadScore
      rw [hl]
    rw [h1]
    rw [h1]
  | some lead =>
    have h1 := recalculateLeadScore_eq MAX db lid lead hl
    simp only [] at h1
    have hl2 : findLead (recalculateLeadScore MAX db lid).db.leads lid
        = some { lead with currentScore :=
            (specReplayTotal MAX db.rules 0
              (sortEventsByTimestamp
                (db.events.filter (fun e => e.leadId == lid && e.processed)))) } := by
      rw [h1]
      simp only []
      rw [findLead_map_updateScoreFn, hl]
      simp [updateScoreFn, findLead_some_leadId hl]
    have h2 := recalculateLeadScore_eq MAX ((recalculateLeadScore MAX db lid).db) lid
      _ hl2
    simp only [] at h2
    rw [h2, h1]
    simp only [DB.mk.injEq]
    refine ⟨?_, trivial, ?_, trivial⟩
    · rw [List.map_map, updateScoreFn_comp]
    · rw [List.filter_append, filter_self_idem, specHistory_filter_out,
        List.append_nil]

def edSameTs : EventData :=
  { eventId := "e3", eventType := "email_open", leadId := "L1",
    timestamp := some 10 }

/-- Witness for the C10 theorem at a concrete input: an event whose
timestamp 10 equals the latest history timestamp of the lead. -/
theorem equal_timestamp_classified_in_order_witness :
    (isProcessedDuplicate dbOneProcessed.events edSameTs.eventId = false
      ∧ findLead dbOneProcessed.leads edSameTs.leadId = some leadL1Ten
      ∧ findActiveRule dbOneProcessed.rules edSameTs.eventType = some ruleEmailOpen
      ∧ latestHistoryTimestamp dbOneProcessed.history edSameTs.leadId = some 10
      ∧ (resolveEvent dbOneProcessed.events edSameTs 0).1.timestamp = 10)
    ∧ (processEvent 1000 dbOneProcessed edSameTs 0 =
        inOrderApply 1000
          { dbOneProcessed with
            events := (resolveEvent dbOneProcessed.events edSameTs 0).2 }
          edSameTs leadL1Ten ruleEmailOpen
      ∧ (processEvent 1000 dbOneProcessed edSameTs 0).db.history = dbOneProcessed.history
      ∧ findLead (processEvent 1000 dbOneProcessed edSameTs 0).db.leads edSameTs.leadId
          = some { leadL1Ten with
                   currentScore := clampScore 1000
                     (leadL1Ten.currentScore + ruleEmailOpen.points) }) :=
  ⟨⟨by decide, by decide, by decide, by decide, by decide⟩,
    equal_timestamp_classified_in_order 1000 0 dbOneProcessed edSameTs leadL1Ten
      ruleEmailOpen 10 (by decide) (by decide) (by decide) (by decide) (by decide)⟩

end LeadScoring
